import Mathlib

/-!
# Verification of the tournament-tracker bracket engine

This development gives a shallow embedding of the bracket-progression code of
the tournament-tracker repository and proves or refutes the specified
properties against it.

Two implementations live in the repository and both are embedded here:

* `src/lib/tournament/logic.ts` — a pure TypeScript engine over a `Match`
  record (`team1`, `team2`, optional `winner`, `round`, optional `bracket`).
  Its functions are translated one-to-one below
  (`createSeededPositions`, `generateKnockoutMatches`, `updateMatchWithWinner`,
  `generateNextRoundMatches`, `isTournamentComplete`, `advanceTournament`, ...).
* `src/lib/tournamentManager.ts` — a wrapper around the external
  `brackets-manager` library backed by a `LocalStorage` table of match rows
  (`status`, `opponent1`, `opponent2`, `round_id`, `group_id`, `number`).
  The wrapper's own advancement code (`updateMatch`, `placePlayerInMatch`,
  the `advance*` helpers and `handleGrandFinalCompletion`) is translated
  below; the external library call `manager.update.match` is abstracted as an
  oracle parameter (`some s` = the library succeeded leaving storage `s`,
  `none` = the library threw, which sends the wrapper into its manual
  fallback path).

Conventions of the embedding:

* `crypto.randomUUID()` produces fresh opaque identifiers; the embedding
  draws identifiers from a `Nat` counter passed to each generating function,
  numbering new matches in creation order.
* JavaScript `===` on possibly-absent ids is modelled by equality of
  `Option Nat` (collapsing `null`/`undefined` to `none`), and JavaScript
  truthiness of an id by `truthyId` (`0`, `null` and `undefined` are falsy).
* `Array.prototype.sort` (stable in modern engines) is modelled by a stable
  insertion sort `jsSortBy`; `[...new Set l]` by `jsSetDedup`;
  `Math.max(...l)` over a possibly empty array by `jsMaxNat`
  (`none` plays the role of `-Infinity`: it compares unequal to every
  actual round number).
* `Math.floor(x / 2)` and `x % 2` on possibly negative JavaScript numbers
  are modelled by `Int.fdiv` and `Int.tmod`.
-/

/-- Stable insertion of one element: the new element goes after every element
`y` with `le y x`, which models the stable JS sort order for a comparator
returning `≤`-style answers. -/
def insertStable (le : α → α → Bool) (x : α) : List α → List α
  | [] => [x]
  | y :: ys => if le y x then y :: insertStable le x ys else x :: y :: ys

/-- Stable sort, modelling `Array.prototype.sort(cmp)` where
`le a b = (cmp a b ≤ 0)`. Elements are inserted in original order, each after
its equals, which reproduces a stable sort. -/
def jsSortBy (le : α → α → Bool) (l : List α) : List α :=
  l.foldl (fun acc x => insertStable le x acc) []

/-- `[...new Set(l)]`: deduplication keeping first occurrences in order. -/
def jsSetDedup (l : List Nat) : List Nat :=
  l.foldl (fun acc x => if acc.contains x then acc else acc ++ [x]) []

/-- `Math.max(...l)` for a list of naturals; `none` models the `-Infinity`
returned on an empty array (it is distinct from every `some r`). -/
def jsMaxNat (l : List Nat) : Option Nat :=
  l.foldl (fun a x => some (match a with | none => x | some m => max m x)) none

/-- JavaScript truthiness of a numeric id (`0`, `null` and `undefined` are
falsy; storage ids start at 1 so `0` never occurs in practice). -/
def truthyId : Option Nat → Bool
  | some n => n != 0
  | none => false

/-- Indexing `l[i]` with a possibly negative JS index: negative indices read
`undefined`. -/
def listGetInt (l : List α) (i : Int) : Option α :=
  if i < 0 then none else l.get? i.toNat

namespace TT

/-! ## Data model of `src/lib/store.ts` / `src/lib/tournament/types.ts`

`Player.id` and `Team.id` are `crypto.randomUUID()` strings compared only for
equality; the embedding represents them as naturals. -/

/-- `Player = { id, name }`. -/
structure Player where
  id : Nat
  name : String
deriving DecidableEq, Repr

/-- `Team = { id, players }`. -/
structure Team where
  id : Nat
  players : List Player
deriving DecidableEq, Repr

/-- The `bracket` tag of a double-elimination match
(`'winners' | 'losers' | 'final'`). -/
inductive Bracket where
  | winners
  | losers
  | final
deriving DecidableEq, Repr

/-- `Match = { id, team1, team2, winner?, round, bracket? }`. The optional
`bracket` field is absent on knockout matches. -/
structure Match where
  id : Nat
  team1 : Team
  team2 : Team
  winner : Option Team := none
  round : Nat
  bracket : Option Bracket := none
deriving DecidableEq, Repr

/-- `TournamentType`: the union of the tags appearing in the two versions of
the store (`'classic' | 'knockout' | 'double-elimination'`); `classic` takes
the code's default branches. -/
inductive TournamentType where
  | classic
  | knockout
  | doubleElimination
deriving DecidableEq, Repr

/-! ## `src/lib/tournament/logic.ts` -/

/-- One iteration of the `while (nextPowerOfTwo < teamCount)` doubling loop of
`createSeededPositions`, with an explicit fuel argument. Starting from `p = 1`
a fuel of `teamCount` more than suffices (`teamCount < 2 ^ teamCount`), so the
fuel-exhausted arm is unreachable from `nextPowerOfTwo`. -/
def nextPowLoop : Nat → Nat → Nat → Nat
  | 0, _, p => p
  | fuel + 1, tc, p => if p < tc then nextPowLoop fuel tc (2 * p) else p

/-- The `nextPowerOfTwo` computation opening `createSeededPositions` (and
repeated verbatim in `calculateExpectedRounds`): the least power of two that
is `≥ teamCount`, computed by doubling from 1. -/
def nextPowerOfTwo (teamCount : Nat) : Nat :=
  nextPowLoop teamCount teamCount 1

/-- The body of the position loop of `createSeededPositions`: the source
increments a `round` counter starting at 1, so `round` is odd exactly when the
index `i` is even, giving `i / 2` for even `i` and
`nextPowerOfTwo - 1 - i / 2` for odd `i`. -/
def seedPosition (size i : Nat) : Nat :=
  if i % 2 == 0 then i / 2 else size - 1 - i / 2

/-- `createSeededPositions(teamCount)`: the seeded position of each team index
in a bracket of `nextPowerOfTwo teamCount` slots. -/
def createSeededPositions (teamCount : Nat) : List Nat :=
  let size := nextPowerOfTwo teamCount
  (List.range size).map (seedPosition size)

/-- The `teamsWithByes` array of `generateKnockoutMatches`: an array of
`positions.length` cells initialized to `null`, where
`teamsWithByes[positions[i]] = teams[i]` for each team index `i`. -/
def placeTeams (teams : List Team) (positions : List Nat) : List (Option Team) :=
  (List.range teams.length).foldl
    (fun arr i => arr.set (positions.getD i 0) (teams.get? i))
    (List.replicate positions.length (none : Option Team))

/-- The adjacent pairs `(teamsWithByes[i], teamsWithByes[i+1])` visited by the
`i += 2` loop of `generateKnockoutMatches`. A trailing singleton can only
occur for an odd-length array, i.e. only when the bracket size is 1 (at most
one team); in that unreachable corner the JS code would build a match with an
`undefined` slot, which the embedding drops. -/
def mkPairs : List (Option Team) → List (Option Team × Option Team)
  | a :: b :: rest => (a, b) :: mkPairs rest
  | [_] => []
  | [] => []

/-- The match-building loop of `generateKnockoutMatches` over the position
pairs: a pair of two empty cells is skipped (`continue`), a one-sided pair
becomes a bye match pre-resolved to its team, a full pair becomes a round-1
match with no winner. `k` is the fresh-id counter standing for
`crypto.randomUUID()`. -/
def knockoutPairMatches (k : Nat) : List (Option Team × Option Team) → List Match
  | [] => []
  | (none, none) :: rest => knockoutPairMatches k rest
  | (none, some t2) :: rest =>
      { id := k, team1 := t2, team2 := t2, winner := some t2, round := 1 } ::
        knockoutPairMatches (k + 1) rest
  | (some t1, none) :: rest =>
      { id := k, team1 := t1, team2 := t1, winner := some t1, round := 1 } ::
        knockoutPairMatches (k + 1) rest
  | (some t1, some t2) :: rest =>
      { id := k, team1 := t1, team2 := t2, winner := none, round := 1 } ::
        knockoutPairMatches (k + 1) rest

/-- `generateKnockoutMatches(teams)` with fresh ids drawn from `k`. -/
def generateKnockoutMatches (teams : List Team) (k : Nat) : List Match :=
  if teams.isEmpty then []
  else
    knockoutPairMatches k
      (mkPairs (placeTeams teams (createSeededPositions teams.length)))

/-- `generateDoubleEliminationMatches(teams)`: the knockout bracket with every
match tagged `bracket: 'winners'`; losers-bracket matches are generated only
as the tournament progresses. -/
def generateDoubleEliminationMatches (teams : List Team) (k : Nat) : List Match :=
  (generateKnockoutMatches teams k).map (fun m => { m with bracket := some .winners })

/-- `isByeMatch(match)`: both slots reference the same team. -/
def isByeMatch (m : Match) : Bool :=
  m.team1.id == m.team2.id

/-- `updateMatchWithWinner(matches, matchId, winner)`. -/
def updateMatchWithWinner (ms : List Match) (matchId : Nat) (winner : Team) :
    List Match :=
  ms.map (fun m => if m.id == matchId then { m with winner := some winner } else m)

/-- `getMatchesForRound(matches, round)`. -/
def getMatchesForRound (ms : List Match) (round : Nat) : List Match :=
  ms.filter (fun m => m.round == round)

/-- `getAllRounds(matches)`: deduplicated rounds sorted ascending. -/
def getAllRounds (ms : List Match) : List Nat :=
  jsSortBy (fun a b => a ≤ b) (jsSetDedup (ms.map (·.round)))

/-- The derived atom `currentMatchesAtom` of `src/lib/store.ts`: the matches
of the current round, presented to the user as the cards to act on. -/
def currentMatches (ms : List Match) (currentRound : Nat) : List Match :=
  ms.filter (fun m => m.round == currentRound)

/-- A list of matches in which every `winner` is set
(`currentRoundMatches.every(m => m.winner)`; a team object is truthy). -/
def allHaveWinners (ms : List Match) : Bool :=
  ms.all (fun m => m.winner.isSome)

/-- `currentRoundMatches.map(m => m.winner!)` after the `every` check: the
present winners in order. On the guarded paths every `winner` is `some`, so
`filterMap` coincides with the non-null-asserted `map` of the source. -/
def extractWinners (ms : List Match) : List Team :=
  ms.filterMap (·.winner)

/-- The pairing loop of `generateNextRoundMatches`: adjacent winners meet in
round `round`; the singleton tail is reached exactly when
`winners.length % 2 !== 0`, the guard of the source's `else if`, and then the
last winner receives a pre-resolved bye. -/
def pairNextRound (k round : Nat) : List Team → List Match
  | a :: b :: rest =>
      { id := k, team1 := a, team2 := b, winner := none, round := round } ::
        pairNextRound (k + 1) round rest
  | [a] => [{ id := k, team1 := a, team2 := a, winner := some a, round := round }]
  | [] => []

/-- `generateNextRoundMatches(matches, currentRound)` with fresh ids from
`k`. -/
def generateNextRoundMatches (ms : List Match) (currentRound k : Nat) : List Match :=
  let currentRoundMatches := getMatchesForRound ms currentRound
  if !allHaveWinners currentRoundMatches then []
  else
    let winners := extractWinners currentRoundMatches
    if winners.length == 1 then []
    else pairNextRound k (currentRound + 1) winners

/-- `l[0].winner` is a present team, guarded in the source by a
`length === 1` check (`undefined` propagates to `false` otherwise). -/
def firstHasWinner (ms : List Match) : Bool :=
  match ms.head? with
  | some m => m.winner.isSome
  | none => false

/-- The matches of a given bracket tag. -/
def bracketMatches (ms : List Match) (b : Bracket) : List Match :=
  ms.filter (fun m => m.bracket == some b)

/-- `isTournamentComplete(matches, currentRound, tournamentType)` (the
double-elimination-aware version of `logic.ts`). For knockout,
`Math.max(...rounds)` on an empty list is `-Infinity` and no match has that
round, which the `none` arm models. A third `final` match can never make the
double-elimination branch true: the source checks only lengths 1 and 2. -/
def isTournamentComplete (ms : List Match) (currentRound : Nat)
    (tournamentType : TournamentType) : Bool :=
  match tournamentType with
  | .knockout =>
      let currentRoundMatches := getMatchesForRound ms currentRound
      if currentRoundMatches.length == 1 && firstHasWinner currentRoundMatches then
        true
      else
        match jsMaxNat (getAllRounds ms) with
        | none => false
        | some maxRound =>
            let finalRoundMatches := getMatchesForRound ms maxRound
            finalRoundMatches.length == 1 && firstHasWinner finalRoundMatches
  | .doubleElimination =>
      let finalMatches := bracketMatches ms .final
      if finalMatches.length == 1 then
        (finalMatches.get? 0 |>.bind (·.winner)).isSome
      else if finalMatches.length == 2 then
        (finalMatches.get? 1 |>.bind (·.winner)).isSome
      else
        false
  | .classic => false

/-- The adjacent-pairing loop used for next-round winners-bracket matches and
for losers advancing within the losers bracket in the double-elimination
branch of `advanceTournament`: the loop guard `i + 1 < length` silently drops
an odd trailing element (no bye is created there). -/
def pairAdjacent (k round : Nat) (b : Bracket) : List Team → List Match
  | a :: c :: rest =>
      { id := k, team1 := a, team2 := c, winner := none, round := round,
        bracket := some b } :: pairAdjacent (k + 1) round b rest
  | _ => []

/-- The pairing loop for losers dropping out of the winners bracket: the
source's `else if (losersDropping.length === 1)` creates a pre-resolved
losers-bracket bye only when there is exactly one dropping loser in total
(`single`), and drops an odd trailing loser otherwise. -/
def pairLosersDropping (k round : Nat) (single : Bool) : List Team → List Match
  | a :: c :: rest =>
      { id := k, team1 := a, team2 := c, winner := none, round := round,
        bracket := some .losers } :: pairLosersDropping (k + 1) round single rest
  | [a] =>
      if single then
        [{ id := k, team1 := a, team2 := a, winner := some a, round := round,
           bracket := some .losers }]
      else []
  | [] => []

/-- `matches.find(m => m.bracket === b && m.round === Math.max(...rounds of b))`:
the bracket's final, `none` when the bracket has no matches
(`Math.max(...[]) = -Infinity` matches no round). -/
def findBracketFinal (ms : List Match) (b : Bracket) : Option Match :=
  match jsMaxNat ((bracketMatches ms b).map (·.round)) with
  | none => none
  | some mx => ms.find? (fun m => m.bracket == some b && m.round == mx)

/-- The first-final creation step of the double-elimination branch: when both
bracket finals have winners and no `final` match exists yet, the winners
bracket champion takes slot A (`team1`) and the losers bracket champion slot B
(`team2`). -/
def newFirstFinal (ms : List Match) (k round : Nat) : List Match :=
  match findBracketFinal ms .winners, findBracketFinal ms .losers with
  | some wf, some lf =>
      match wf.winner, lf.winner with
      | some ww, some lw =>
          if ms.any (fun m => m.bracket == some Bracket.final) then []
          else
            [{ id := k, team1 := ww, team2 := lw, winner := none, round := round,
               bracket := some .final }]
      | _, _ => []
  | _, _ => []

/-- The second-final (bracket reset) creation step: fires when the first
`final` match has a winner, that winner is the slot-B (losers bracket) team,
and no other `final` match exists. -/
def newSecondFinal (ms : List Match) (k round : Nat) : List Match :=
  match ms.find? (fun m => m.bracket == some Bracket.final) with
  | some firstFinal =>
      match firstFinal.winner with
      | some w =>
          if w.id == firstFinal.team2.id &&
              !(ms.any (fun m =>
                m.bracket == some Bracket.final && m.id != firstFinal.id)) then
            [{ id := k, team1 := firstFinal.team1, team2 := firstFinal.team2,
               winner := none, round := round, bracket := some .final }]
          else []
      | none => []
  | none => []

/-- `advanceTournament(matches, currentRound, tournamentType)` of `logic.ts`
(the double-elimination-aware version; the earlier version of the file is its
restriction to the knockout branch, returning every non-knockout input
unchanged exactly as the `classic` default arm does). Fresh ids for the
appended matches are drawn in creation order from `k`. The source's unused
bindings `remainingWinners` / `remainingLosers` are omitted. -/
def advanceTournament (ms : List Match) (currentRound : Nat)
    (tournamentType : TournamentType) (k : Nat) : List Match × Nat :=
  match tournamentType with
  | .knockout =>
      let currentRoundMatches := getMatchesForRound ms currentRound
      if !allHaveWinners currentRoundMatches then (ms, currentRound)
      else if isTournamentComplete ms currentRound .knockout then (ms, currentRound)
      else
        let nextRoundMatches := generateNextRoundMatches ms currentRound k
        if nextRoundMatches.isEmpty then (ms, currentRound)
        else (ms ++ nextRoundMatches, currentRound + 1)
  | .doubleElimination =>
      let currentWinnersMatches :=
        ms.filter (fun m => m.round == currentRound && m.bracket == some Bracket.winners)
      let currentLosersMatches :=
        ms.filter (fun m => m.round == currentRound && m.bracket == some Bracket.losers)
      let currentFinalMatches :=
        ms.filter (fun m => m.round == currentRound && m.bracket == some Bracket.final)
      if (currentWinnersMatches.length > 0 && !allHaveWinners currentWinnersMatches) ||
          (currentLosersMatches.length > 0 && !allHaveWinners currentLosersMatches) ||
          (currentFinalMatches.length > 0 && !allHaveWinners currentFinalMatches) then
        (ms, currentRound)
      else if isTournamentComplete ms currentRound .doubleElimination then
        (ms, currentRound)
      else
        -- Winners-bracket block (`if (currentWinnersMatches.length > 0)`).
        let winnersAdvancing := extractWinners currentWinnersMatches
        let losersDropping :=
          currentWinnersMatches.filterMap (fun m =>
            match m.winner with
            | some w =>
                if !isByeMatch m then
                  some (if w.id == m.team1.id then m.team2 else m.team1)
                else none
            | none => none)
        let wNext :=
          if currentWinnersMatches.length > 0 && winnersAdvancing.length > 1 then
            pairAdjacent k (currentRound + 1) .winners winnersAdvancing
          else []
        let ldNext :=
          if currentWinnersMatches.length > 0 && losersDropping.length > 0 then
            pairLosersDropping (k + wNext.length) (currentRound + 1)
              (losersDropping.length == 1) losersDropping
          else []
        -- Losers-bracket block (`if (currentLosersMatches.length > 0)`).
        let losersAdvancing := extractWinners currentLosersMatches
        let laNext :=
          if currentLosersMatches.length > 0 && losersAdvancing.length > 1 then
            pairAdjacent (k + wNext.length + ldNext.length) (currentRound + 1)
              .losers losersAdvancing
          else []
        let fNext :=
          newFirstFinal ms (k + wNext.length + ldNext.length + laNext.length)
            (currentRound + 1)
        let sNext :=
          newSecondFinal ms (k + wNext.length + ldNext.length + laNext.length +
            fNext.length) (currentRound + 1)
        let nextRoundMatches := wNext ++ ldNext ++ laNext ++ fNext ++ sNext
        if nextRoundMatches.isEmpty then (ms, currentRound)
        else (ms ++ nextRoundMatches, currentRound + 1)
  | .classic => (ms, currentRound)

/-! ## `src/lib/tournamentManager.ts` over `src/lib/localStorage.ts`

The storage rows follow the `brackets-manager` data model. An opponent slot
is `null`/absent (`none`) or a record whose `id` may itself be null; both
nulls are modelled as `none` (the wrapper only reads ids through `?.id`,
where the two behave identically). Statuses are the library's numbers:
0 = waiting, 1 = locked, 2 = ready, 3 = running, 4 = completed. -/

/-- The `result` literal written into an opponent record: `'win' | 'loss'`. -/
inductive OppResult where
  | win
  | loss
deriving DecidableEq, Repr

/-- An `opponent1`/`opponent2` record: `{ id, score, result }` (the `position`
field is always null where the wrapper writes it and never read). -/
structure Opponent where
  oid : Option Nat := none
  score : Option Int := none
  result : Option OppResult := none
deriving DecidableEq, Repr

/-- A row of the `match` table. -/
structure StoredMatch where
  id : Nat
  number : Nat
  round_id : Nat
  group_id : Nat
  status : Nat
  opponent1 : Option Opponent := none
  opponent2 : Option Opponent := none
deriving DecidableEq, Repr

/-- `stage.type`. -/
inductive StageType where
  | single_elimination
  | double_elimination
deriving DecidableEq, Repr

/-- A row of the `stage` table (only the fields the wrapper reads). -/
structure Stage where
  id : Nat
  type : StageType
deriving DecidableEq, Repr

/-- The `LocalStorage` contents the wrapper touches: the `stage` and `match`
tables (`matchTable`, since `match` is reserved in Lean). -/
structure Store where
  stageTable : List Stage
  matchTable : List StoredMatch
deriving DecidableEq, Repr

/-- `opponent?.id`. -/
def oidOf (o : Option Opponent) : Option Nat :=
  o.bind (·.oid)

/-- `storage.select('match', id)`: the row with that id as a singleton list,
or the empty list (`LocalStorage.select` with an ID filter). -/
def selectMatchById (s : Store) (matchId : Nat) : List StoredMatch :=
  match s.matchTable.find? (fun m => m.id == matchId) with
  | some m => [m]
  | none => []

/-- `storage.update('match', id, patch)`: the patch
(`{ ...item, ...value }`) is applied to every row with that id; each call
site's patch object is translated into the row transformer `f`. -/
def updateMatchRow (s : Store) (matchId : Nat) (f : StoredMatch → StoredMatch) :
    Store :=
  { s with matchTable :=
      s.matchTable.map (fun m => if m.id == matchId then f m else m) }

/-- The two slot names of a match. -/
inductive Pos where
  | opponent1
  | opponent2
deriving DecidableEq, Repr

/-- The slot of a row named by `pos`. -/
def slotOf (m : StoredMatch) : Pos → Option Opponent
  | .opponent1 => m.opponent1
  | .opponent2 => m.opponent2

/-- `placePlayerInMatch(match, playerId, position)`: refuses (returning with
the store untouched, after only a `console.log`) when the same player already
sits in the other slot or when the target slot is already occupied; otherwise
writes `{ id: playerId, position: null, result: null, score: null }` into the
slot, re-reads the row, and promotes a waiting row with both slots present to
ready (status 2). If the row cannot be re-read the source would crash on a
`TypeError` (`matchData.opponent1` on `undefined`); that needs `match.id`
absent from the table, which never happens for rows taken from it, and the
embedding returns the store unchanged there. -/
def placePlayerInMatch (s : Store) (m : StoredMatch) (playerId : Option Nat)
    (pos : Pos) : Store :=
  if pos == Pos.opponent1 && oidOf m.opponent2 == playerId then s
  else if pos == Pos.opponent2 && oidOf m.opponent1 == playerId then s
  else if pos == Pos.opponent1 && truthyId (oidOf m.opponent1) then s
  else if pos == Pos.opponent2 && truthyId (oidOf m.opponent2) then s
  else
    let newOpp : Option Opponent := some { oid := playerId }
    let s1 := updateMatchRow s m.id (fun sm =>
      match pos with
      | .opponent1 => { sm with opponent1 := newOpp }
      | .opponent2 => { sm with opponent2 := newOpp })
    match selectMatchById s1 m.id with
    | matchData :: _ =>
        if truthyId (oidOf matchData.opponent1) &&
            truthyId (oidOf matchData.opponent2) && matchData.status == 0 then
          updateMatchRow s1 m.id (fun sm => { sm with status := 2 })
        else s1
    | [] => s1

/-- `advancePlayersSingleElimination(completedMatch, winnerId)`. -/
def advancePlayersSingleElimination (s : Store) (completedMatch : StoredMatch)
    (winnerId : Option Nat) : Store :=
  if !truthyId winnerId then s
  else
    let allMatches := s.matchTable
    let nextRoundMatches :=
      allMatches.filter (fun m => m.round_id == completedMatch.round_id + 1)
    if nextRoundMatches.isEmpty then s
    else
      let targetMatchIndex : Int := Int.fdiv ((completedMatch.number : Int) - 1) 2
      let sorted := jsSortBy (fun a b => a.number ≤ b.number) nextRoundMatches
      match listGetInt sorted targetMatchIndex with
      | none => s
      | some targetMatch =>
          let pos : Pos :=
            if Int.tmod ((completedMatch.number : Int) - 1) 2 == 0 then .opponent1
            else .opponent2
          placePlayerInMatch s targetMatch winnerId pos

/-- `advanceWinnerInWinnersBracket(completedMatch, winnerId, allMatches)`. -/
def advanceWinnerInWinnersBracket (s : Store) (completedMatch : StoredMatch)
    (winnerId : Option Nat) (allMatches : List StoredMatch) : Store :=
  if !truthyId winnerId then s
  else
    let nextWinnersBracketMatches :=
      allMatches.filter (fun m =>
        m.group_id == 1 && m.round_id == completedMatch.round_id + 1)
    if nextWinnersBracketMatches.isEmpty then
      -- No next winners-bracket round: advance to the grand final (the
      -- highest group id).
      let allGroups :=
        jsSortBy (fun a b => b ≤ a) (jsSetDedup (allMatches.map (·.group_id)))
      match allGroups.head? with
      | none => s
      | some grandFinalGroupId =>
          let grandFinalMatches :=
            allMatches.filter (fun m => m.group_id == grandFinalGroupId)
          match grandFinalMatches.head? with
          | none => s
          | some grandFinalMatch =>
              if !truthyId (oidOf grandFinalMatch.opponent1) then
                placePlayerInMatch s grandFinalMatch winnerId .opponent1
              else if !truthyId (oidOf grandFinalMatch.opponent2) then
                placePlayerInMatch s grandFinalMatch winnerId .opponent2
              else s
    else
      let targetMatchIndex : Int := Int.fdiv ((completedMatch.number : Int) - 1) 2
      let sorted := jsSortBy (fun a b => a.number ≤ b.number) nextWinnersBracketMatches
      match listGetInt sorted targetMatchIndex with
      | none => s
      | some targetMatch =>
          let pos : Pos :=
            if Int.tmod ((completedMatch.number : Int) - 1) 2 == 0 then .opponent1
            else .opponent2
          placePlayerInMatch s targetMatch winnerId pos

/-- The search loop of `findAndPlaceInAvailableLosersBracketMatch`: the first
match with a free slot receives the player. -/
def findAndPlaceLoop (s : Store) (loserId : Option Nat) :
    List StoredMatch → Store
  | [] => s
  | m :: rest =>
      if !truthyId (oidOf m.opponent1) then
        placePlayerInMatch s m loserId .opponent1
      else if !truthyId (oidOf m.opponent2) then
        placePlayerInMatch s m loserId .opponent2
      else findAndPlaceLoop s loserId rest

/-- `findAndPlaceInAvailableLosersBracketMatch(loserId, losersBracketMatches)`:
re-sorts by round then number and places the player in the first free slot. -/
def findAndPlaceInAvailableLosersBracketMatch (s : Store) (loserId : Option Nat)
    (losersBracketMatches : List StoredMatch) : Store :=
  let sorted :=
    jsSortBy (fun a b =>
      a.round_id < b.round_id || (a.round_id == b.round_id && a.number ≤ b.number))
      losersBracketMatches
  findAndPlaceLoop s loserId sorted

/-- `advanceLoserToLosersBracket(completedMatch, loserId, allMatches)`.
`Math.max` over an empty list of winners-bracket rounds is `-Infinity` and
matches no `round_id`, which the `Option` comparison models; the
`targetRound = (round_id - 1) * 2 + 1` formula for later rounds is computed
over `Int` as in JS. -/
def advanceLoserToLosersBracket (s : Store) (completedMatch : StoredMatch)
    (loserId : Option Nat) (allMatches : List StoredMatch) : Store :=
  if !truthyId loserId then s
  else
    let losersBracketMatches :=
      jsSortBy (fun a b =>
        a.round_id < b.round_id || (a.round_id == b.round_id && a.number ≤ b.number))
        (allMatches.filter (fun m => m.group_id == 2))
    let maxWinnersRound :=
      jsMaxNat ((allMatches.filter (fun m => m.group_id == 1)).map (·.round_id))
    if some completedMatch.round_id == maxWinnersRound then
      -- Loser of the winners-bracket final goes to the losers-bracket final.
      let maxLosersRound := jsMaxNat (losersBracketMatches.map (·.round_id))
      let losersBracketFinalMatches :=
        losersBracketMatches.filter (fun m => some m.round_id == maxLosersRound)
      match losersBracketFinalMatches.head? with
      | none => s
      | some finalMatch =>
          if !truthyId (oidOf finalMatch.opponent1) then
            placePlayerInMatch s finalMatch loserId .opponent1
          else if !truthyId (oidOf finalMatch.opponent2) then
            placePlayerInMatch s finalMatch loserId .opponent2
          else s
    else if completedMatch.round_id == 1 then
      let firstRoundLosersMatches :=
        losersBracketMatches.filter (fun m => m.round_id == 1)
      let targetMatchIndex : Int := Int.fdiv ((completedMatch.number : Int) - 1) 2
      match listGetInt firstRoundLosersMatches targetMatchIndex with
      | some targetMatch =>
          let pos : Pos :=
            if Int.tmod ((completedMatch.number : Int) - 1) 2 == 0 then .opponent1
            else .opponent2
          placePlayerInMatch s targetMatch loserId pos
      | none =>
          findAndPlaceInAvailableLosersBracketMatch s loserId losersBracketMatches
    else
      let targetRound : Int := ((completedMatch.round_id : Int) - 1) * 2 + 1
      let targetRoundMatches :=
        losersBracketMatches.filter (fun m => (m.round_id : Int) == targetRound)
      if targetRoundMatches.isEmpty then
        findAndPlaceInAvailableLosersBracketMatch s loserId losersBracketMatches
      else
        match targetRoundMatches.find? (fun m =>
            !truthyId (oidOf m.opponent1) || !truthyId (oidOf m.opponent2)) with
        | some availableMatch =>
            let pos : Pos :=
              if !truthyId (oidOf availableMatch.opponent1) then .opponent1
              else .opponent2
            placePlayerInMatch s availableMatch loserId pos
        | none => s

/-- `advanceWinnerInLosersBracket(completedMatch, winnerId, allMatches)`. -/
def advanceWinnerInLosersBracket (s : Store) (completedMatch : StoredMatch)
    (winnerId : Option Nat) (allMatches : List StoredMatch) : Store :=
  if !truthyId winnerId then s
  else
    let nextLosersBracketMatches :=
      allMatches.filter (fun m =>
        m.group_id == 2 && m.round_id == completedMatch.round_id + 1)
    if nextLosersBracketMatches.isEmpty then
      let grandFinalMatches := allMatches.filter (fun m => m.group_id == 3)
      match (jsSortBy (fun a b => a.round_id ≤ b.round_id) grandFinalMatches).head? with
      | none => s
      | some firstGrandFinal =>
          if !truthyId (oidOf firstGrandFinal.opponent2) then
            placePlayerInMatch s firstGrandFinal winnerId .opponent2
          else s
    else
      match (jsSortBy (fun a b => a.number ≤ b.number)
          nextLosersBracketMatches).head? with
      | none => s
      | some targetMatch =>
          let pos : Pos :=
            if !truthyId (oidOf targetMatch.opponent1) then .opponent1
            else .opponent2
          placePlayerInMatch s targetMatch winnerId pos

/-- `handleGrandFinalCompletion(completedMatch, winnerId, allMatches)`: on the
first grand final, when the winner is the slot-B (losers bracket) player and
the second grand final is still empty, both finalists are placed into the
second grand final (winners-bracket champion as `opponent1`, first-final
winner as `opponent2`); otherwise nothing happens. -/
def handleGrandFinalCompletion (s : Store) (completedMatch : StoredMatch)
    (winnerId : Option Nat) (allMatches : List StoredMatch) : Store :=
  if !truthyId winnerId then s
  else
    let grandFinalMatches :=
      jsSortBy (fun a b => a.round_id ≤ b.round_id)
        (allMatches.filter (fun m => m.group_id == 3))
    let isFirstGrandFinal :=
      some completedMatch.id == (grandFinalMatches.head?).map (·.id)
    if isFirstGrandFinal && grandFinalMatches.length > 1 then
      let winnerIsFromLosersBracket := oidOf completedMatch.opponent2 == winnerId
      if winnerIsFromLosersBracket then
        match grandFinalMatches.get? 1 with
        | some secondGrandFinal =>
            if !truthyId (oidOf secondGrandFinal.opponent1) &&
                !truthyId (oidOf secondGrandFinal.opponent2) then
              let winnersBracketChampion := oidOf completedMatch.opponent1
              let s1 :=
                placePlayerInMatch s secondGrandFinal winnersBracketChampion
                  .opponent1
              placePlayerInMatch s1 secondGrandFinal winnerId .opponent2
            else s
        | none => s
      else s
    else s

/-- `advancePlayersDoubleElimination(completedMatch, winnerId, loserId)`:
group 3 is the grand final, group 1 the winners bracket, anything else the
losers bracket. The `allMatches` snapshot is taken once and shared, exactly
as in the source. -/
def advancePlayersDoubleElimination (s : Store) (completedMatch : StoredMatch)
    (winnerId loserId : Option Nat) : Store :=
  let allMatches := s.matchTable
  if completedMatch.group_id == 3 then
    handleGrandFinalCompletion s completedMatch winnerId allMatches
  else if completedMatch.group_id == 1 then
    let s1 := advanceWinnerInWinnersBracket s completedMatch winnerId allMatches
    advanceLoserToLosersBracket s1 completedMatch loserId allMatches
  else
    advanceWinnerInLosersBracket s completedMatch winnerId allMatches

/-- The spec's error taxonomy for the reporting operation. The wrapper throws
only two of these: `Match with ID ... not found` (`matchNotFound`) and
`Cannot update a completed match` (`invalidOperation`); the others never
occur in the code and are listed to make that refutable. -/
inductive TErr where
  | insufficientCompetitors
  | invalidScore
  | matchNotFound
  | matchNotReady
  | invalidOperation
  | bracketCorruption
deriving DecidableEq, Repr

/-- The result of `updateMatch`: the storage state when the call returns or
throws, and the error thrown, if any (`none` = the call returned `true`). -/
structure UpdateOutcome where
  store : Store
  error : Option TErr
deriving DecidableEq, Repr

/-- The update payload handed to `manager.update.match`. -/
structure MatchUpdateData where
  id : Nat
  opponent1Score : Int
  opponent1Win : Bool
  opponent2Score : Int
  opponent2Win : Bool
deriving DecidableEq, Repr

/-- The behavior of the external `brackets-manager` call
`manager.update.match`: `some s'` means the library succeeded leaving storage
`s'`; `none` means it threw, sending the wrapper into its manual fallback. -/
def ManagerOracle : Type :=
  Store → MatchUpdateData → Option Store

/-- `{ ...match.opponentN, score, result }` of the fallback update: spreading
a null opponent yields a record with only `score` and `result`. -/
def spreadOpp (o : Option Opponent) (sc : Int) (res : OppResult) : Opponent :=
  match o with
  | some oo => { oo with score := some sc, result := some res }
  | none => { oid := none, score := some sc, result := some res }

/-- `TournamentManager.updateMatch(matchId, opponent1Score, opponent2Score)`.
Throws when the match is missing or already completed (status 4) before
touching storage. The winner is the slot with the strictly higher score
(`opponent1Wins = opponent1Score > opponent2Score` — equal scores make slot B
the winner); there is no tie check. On library success the wrapper re-runs
its own double-elimination advancement; on library failure it completes the
match manually and advances players itself. -/
def updateMatch (managerUpdate : ManagerOracle) (s : Store) (matchId : Nat)
    (opponent1Score opponent2Score : Int) : UpdateOutcome :=
  match selectMatchById s matchId with
  | [] => { store := s, error := some .matchNotFound }
  | m :: _ =>
      if m.status == 4 then { store := s, error := some .invalidOperation }
      else
        let opponent1Wins := opponent1Score > opponent2Score
        let winnerId := if opponent1Wins then oidOf m.opponent1 else oidOf m.opponent2
        let loserId := if opponent1Wins then oidOf m.opponent2 else oidOf m.opponent1
        let updateData : MatchUpdateData :=
          { id := matchId, opponent1Score := opponent1Score,
            opponent1Win := opponent1Wins, opponent2Score := opponent2Score,
            opponent2Win := !opponent1Wins }
        match managerUpdate s updateData with
        | some sLib =>
            -- Library success; for double elimination the wrapper forces its
            -- manual advancement on top.
            let tournamentType := (sLib.stageTable.head?).map (·.type)
            if tournamentType == some StageType.double_elimination then
              { store := advancePlayersDoubleElimination sLib m winnerId loserId,
                error := none }
            else { store := sLib, error := none }
        | none =>
            -- Fallback: complete the match manually, then advance players.
            let sF := updateMatchRow s matchId (fun sm =>
              { sm with
                  status := 4,
                  opponent1 := some (spreadOpp m.opponent1 opponent1Score
                    (if opponent1Wins then OppResult.win else OppResult.loss)),
                  opponent2 := some (spreadOpp m.opponent2 opponent2Score
                    (if opponent1Wins then OppResult.loss else OppResult.win)) })
            let tournamentType := (sF.stageTable.head?).map (·.type)
            if tournamentType == some StageType.double_elimination then
              { store := advancePlayersDoubleElimination sF m winnerId loserId,
                error := none }
            else
              { store := advancePlayersSingleElimination sF m winnerId,
                error := none }

/-! ## Concrete scenario states

Scenario C of the specification: a 4-team double elimination run entirely
through the engine of `logic.ts`, up to the point where the losers-bracket
champion has just won the first Final. -/

/-- A singles team with no recorded players (player lists never influence the
engine). -/
def mkTeam (n : Nat) : Team :=
  { id := n, players := [] }

/-- Round 1 of the 4-team double elimination: winners-bracket matches
`(team 1 vs team 3)` (id 0) and `(team 4 vs team 2)` (id 1). -/
def dblRound1 : List Match :=
  generateDoubleEliminationMatches [mkTeam 1, mkTeam 2, mkTeam 3, mkTeam 4] 0

/-- After reporting rounds 1 results (teams 1 and 4 win) and advancing:
winners-bracket final `(1 vs 4)` (id 2) and losers-bracket match `(3 vs 2)`
(id 3) in round 2. -/
def dblRound2 : List Match × Nat :=
  advanceTournament
    (updateMatchWithWinner (updateMatchWithWinner dblRound1 0 (mkTeam 1)) 1 (mkTeam 4))
    1 .doubleElimination 2

/-- After reporting round 2 results (team 1 wins the winners final, team 3
the losers match) and advancing: a losers-bracket bye for team 4 (id 4) and
the first Final `(1 vs 3)` (id 5) in round 3, with team 1 — the
winners-bracket champion — in slot A and team 3 — the losers-bracket
champion — in slot B. -/
def dblRound3 : List Match × Nat :=
  advanceTournament
    (updateMatchWithWinner (updateMatchWithWinner dblRound2.1 2 (mkTeam 1)) 3 (mkTeam 3))
    2 .doubleElimination 4

/-- The state just after the losers-bracket champion (team 3, slot B) wins
the first Final: the point where the grand-final reset rule must fire. -/
def dblAfterResetWin : List Match :=
  updateMatchWithWinner dblRound3.1 5 (mkTeam 3)

/-- C1: in a double-elimination tournament in which the slot-B (losers
bracket) team has just won the first Final, `advanceTournament` must create a
second Final with the original finalists. The code instead returns the state
unchanged: `isTournamentComplete` already counts a single resolved `final`
match as complete, so `advanceTournament` takes its completeness early-return
before ever reaching its own second-final creation branch, which is therefore
dead code. This theorem evaluates the engine at the failing input: the state
holds exactly one Final, won by its slot-B team, and advancing returns the
match list and round unchanged — no second Final is ever created. -/
theorem advanceTournament_never_creates_second_final :
    (bracketMatches dblAfterResetWin .final).map
        (fun m => (m.id, m.team1.id, m.team2.id, m.winner.map (·.id))) =
      [(5, 1, 3, some 3)] ∧
    advanceTournament dblAfterResetWin 3 .doubleElimination 6 =
      (dblAfterResetWin, 3) := by
  decide

/-- C3 counterexample: immediately after the losers-bracket champion (slot B)
wins the first Final — the very situation the claim says leaves the
tournament incomplete until a second Final is resolved — the completion query
already returns `true`. -/
theorem isTournamentComplete_true_despite_reset_pending :
    isTournamentComplete dblAfterResetWin 3 .doubleElimination = true ∧
    (bracketMatches dblAfterResetWin .final).map
        (fun m => (m.winner.map (·.id), m.team2.id)) = [(some 3, 3)] := by
  decide

/-- The specification-side reading of the corrected completion rule for
double elimination: the `final` bracket holds one match and it is resolved,
or it holds two matches and the second (the reset match) is resolved; any
other shape, including no finals at all, is incomplete. -/
def lastFinalResolved (ms : List Match) : Bool :=
  match bracketMatches ms .final with
  | [f] => f.winner.isSome
  | [_, g] => g.winner.isSome
  | _ => false

/-- C3 (amended): the completion query for double elimination returns true
exactly when the last created Final match is resolved — one resolved Final
suffices whoever won it; no pending-reset condition is consulted (and the
engine never creates the reset match, see the C1 theorem). -/
theorem isTournamentComplete_iff_lastFinalResolved (ms : List Match) (r : Nat) :
    isTournamentComplete ms r .doubleElimination = lastFinalResolved ms := by
  unfold isTournamentComplete lastFinalResolved
  rcases h : bracketMatches ms .final with _ | ⟨a, _ | ⟨b, l⟩⟩ <;> simp
  rcases l with _ | ⟨c, l⟩ <;> simp

/-! ## Concrete storage states for the `tournamentManager` wrapper -/

/-- An oracle on which the external `brackets-manager` call always throws, so
the wrapper runs its own (fully repository-local) fallback path. -/
def failOracle : ManagerOracle := fun _ _ => none

/-- An occupied opponent slot holding participant `n`. -/
def oppSlot (n : Nat) : Option Opponent :=
  some { oid := some n }

/-- A ready (status 2) first-round match between participants 1 and 2. -/
def readyMatch : StoredMatch :=
  { id := 1, number := 1, round_id := 1, group_id := 1, status := 2,
    opponent1 := oppSlot 1, opponent2 := oppSlot 2 }

/-- A single-elimination store holding just `readyMatch`. -/
def tieStore : Store :=
  { stageTable := [{ id := 1, type := .single_elimination }],
    matchTable := [readyMatch] }

/-- A completed (status 4) match: its result has already been recorded. -/
def completedMatch : StoredMatch :=
  { id := 1, number := 1, round_id := 1, group_id := 1, status := 4,
    opponent1 := oppSlot 1, opponent2 := oppSlot 2 }

/-- A store whose only match is already completed. -/
def completedStore : Store :=
  { stageTable := [{ id := 1, type := .single_elimination }],
    matchTable := [completedMatch] }

/-- A waiting second-round match whose slot A is already occupied by
participant 9 — the destination of `readyMatch`'s winner. -/
def occupiedNext : StoredMatch :=
  { id := 3, number := 1, round_id := 2, group_id := 1, status := 0,
    opponent1 := oppSlot 9, opponent2 := none }

/-- A store in which reporting `readyMatch` routes its winner into the
already-occupied slot A of `occupiedNext`. -/
def occupiedStore : Store :=
  { stageTable := [{ id := 1, type := .single_elimination }],
    matchTable := [readyMatch, occupiedNext] }

/-- C2 counterexample: reporting the tied score 3–3 on a ready match is not
rejected — no error is thrown, the state changes, and the match is completed
with slot B recorded as the winner (`opponent1Wins` is `3 > 3 = false`). -/
theorem updateMatch_accepts_tie :
    (updateMatch failOracle tieStore 1 3 3).error = none ∧
    (updateMatch failOracle tieStore 1 3 3).store ≠ tieStore ∧
    ((updateMatch failOracle tieStore 1 3 3).store.matchTable.find?
        (fun m => m.id == 1)).map
        (fun m => (m.status, m.opponent2.bind (·.result))) =
      some (4, some .win) := by
  decide

/-- C2 (amended): equal scores are never rejected as `InvalidScore` — the
wrapper computes the winner by the strict comparison
`opponent1Score > opponent2Score`, so a tie simply makes slot B the winner
and the report proceeds like any other; no code path produces an
`InvalidScore` failure. -/
theorem updateMatch_tie_not_invalidScore (oracle : ManagerOracle) (s : Store)
    (matchId : Nat) (a b : Int) (hab : a = b) :
    (updateMatch oracle s matchId a b).error ≠ some TErr.invalidScore := by
  unfold updateMatch
  rcases selectMatchById s matchId with _ | ⟨m, rest⟩
  · simp
  · dsimp only
    split
    · simp
    · rcases oracle s _ with _ | s' <;> dsimp only <;> split <;> (try split) <;> simp

/-- Witness for the amended C2 theorem at the concrete tie 3–3. -/
theorem updateMatch_tie_not_invalidScore_witness :
    (3 : Int) = 3 ∧
    (updateMatch failOracle tieStore 1 3 3).error ≠ some TErr.invalidScore :=
  ⟨rfl, updateMatch_tie_not_invalidScore failOracle tieStore 1 3 3 rfl⟩

/-- C4: reporting a result for a match whose outcome is already recorded
(status 4, completed) fails — the wrapper throws
`Cannot update a completed match`, the `InvalidOperation` of the
specification's taxonomy — before touching storage, so the state is exactly
the state after the first, successful report. -/
theorem updateMatch_completed_rejected (oracle : ManagerOracle) (s : Store)
    (matchId : Nat) (a b : Int) (m : StoredMatch)
    (hfind : s.matchTable.find? (fun x => x.id == matchId) = some m)
    (hdone : m.status = 4) :
    updateMatch oracle s matchId a b =
      { store := s, error := some TErr.invalidOperation } := by
  unfold updateMatch selectMatchById
  rw [hfind]
  simp [hdone]

/-- Witness for C4: the second report on `completedStore`'s match 1 fails
with `InvalidOperation` and leaves the store untouched. -/
theorem updateMatch_completed_rejected_witness :
    (completedStore.matchTable.find? (fun x => x.id == 1) = some completedMatch ∧
      completedMatch.status = 4) ∧
    updateMatch failOracle completedStore 1 2 0 =
      { store := completedStore, error := some TErr.invalidOperation } :=
  ⟨⟨by decide, by decide⟩,
    updateMatch_completed_rejected failOracle completedStore 1 2 0 completedMatch
      (by decide) (by decide)⟩

/-- C7 counterexample: a full report whose winner's destination slot is
already occupied by a different participant (9) completes without any error
(`error = none`): the `BracketCorruption` failure the claim requires is never
raised — `placePlayerInMatch` only logs and returns. The destination row is
untouched (the occupant is not overwritten), as the amended theorem states in
general. -/
theorem updateMatch_slot_collision_swallowed :
    (updateMatch failOracle occupiedStore 1 5 3).error = none ∧
    (updateMatch failOracle occupiedStore 1 5 3).store.matchTable.find?
        (fun m => m.id == 3) = some occupiedNext := by
  decide

/-- C7 (amended): when the destination slot already holds a (truthy)
participant id, `placePlayerInMatch` never overwrites it — the store is
returned completely unchanged — but no `BracketCorruption` (or any other)
failure is surfaced: the refusal is written to the console and swallowed. -/
theorem placePlayerInMatch_occupied_noop (s : Store) (m : StoredMatch)
    (playerId : Option Nat) (pos : Pos)
    (hocc : truthyId (oidOf (slotOf m pos)) = true) :
    placePlayerInMatch s m playerId pos = s := by
  cases pos <;> unfold placePlayerInMatch <;>
    simp only [slotOf] at hocc <;> split_ifs <;> simp_all

/-- Witness for the amended C7 theorem: placing participant 1 into the
occupied slot A of `occupiedNext` leaves `occupiedStore` unchanged. -/
theorem placePlayerInMatch_occupied_noop_witness :
    truthyId (oidOf (slotOf occupiedNext .opponent1)) = true ∧
    placePlayerInMatch occupiedStore occupiedNext (some 1) .opponent1 =
      occupiedStore :=
  ⟨by decide,
    placePlayerInMatch_occupied_noop occupiedStore occupiedNext (some 1)
      .opponent1 (by decide)⟩

/-- C10: `updateMatchWithWinner` is a pure per-element rewrite: the output
has the same length and order, the entry at each position is the input entry
with only its `winner` field set to the given team when its id matches, and
is the input entry unchanged otherwise; when no entry carries the id the
whole list is returned unchanged. -/
theorem updateMatchWithWinner_frame (ms : List Match) (matchId : Nat) (w : Team) :
    (updateMatchWithWinner ms matchId w).length = ms.length ∧
    (∀ i, (h : i < ms.length) →
      (updateMatchWithWinner ms matchId w).get? i =
        some (if ms[i].id = matchId then { ms[i] with winner := some w }
              else ms[i])) ∧
    ((∀ m ∈ ms, m.id ≠ matchId) → updateMatchWithWinner ms matchId w = ms) := by
  refine ⟨by simp [updateMatchWithWinner], ?_, ?_⟩
  · intro i h
    simp only [updateMatchWithWinner, List.get?_eq_getElem?, List.getElem?_map,
      List.getElem?_eq_getElem h]
    simp [beq_iff_eq]
  · induction ms with
    | nil => intro _; rfl
    | cons m rest ih =>
        intro hno
        have h1 : (m.id == matchId) = false := by
          simpa using hno m (by simp)
        have h2 := ih (fun x hx => hno x (by simp [hx]))
        simp only [updateMatchWithWinner, List.map_cons] at h2 ⊢
        rw [h1]
        simpa using h2

/-- Witness for C10 at a concrete two-element list: the matching entry gets
its winner set, the other entry and an id-free list are untouched. -/
theorem updateMatchWithWinner_frame_witness :
    (updateMatchWithWinner
        [{ id := 0, team1 := mkTeam 1, team2 := mkTeam 2, round := 1 },
         { id := 7, team1 := mkTeam 3, team2 := mkTeam 4, round := 1 }] 7
        (mkTeam 3)).length = 2 ∧
    updateMatchWithWinner
        [{ id := 0, team1 := mkTeam 1, team2 := mkTeam 2, round := 1 }] 7
        (mkTeam 3) =
      [{ id := 0, team1 := mkTeam 1, team2 := mkTeam 2, round := 1 }] :=
  ⟨(updateMatchWithWinner_frame
      [{ id := 0, team1 := mkTeam 1, team2 := mkTeam 2, round := 1 },
       { id := 7, team1 := mkTeam 3, team2 := mkTeam 4, round := 1 }] 7
      (mkTeam 3)).1,
   (updateMatchWithWinner_frame
      [{ id := 0, team1 := mkTeam 1, team2 := mkTeam 2, round := 1 }] 7
      (mkTeam 3)).2.2 (by decide)⟩

/-- Both `advanceTournament` branches end in the same return shape: the
input unchanged when nothing was generated, otherwise the input with the new
matches appended and the round advanced. -/
theorem advanceShape (ms : List Match) (r : Nat) (l : List Match) :
    ∃ app, (if l.isEmpty = true then (ms, r) else (ms ++ l, r + 1)).1 = ms ++ app ∧
      ((if l.isEmpty = true then (ms, r) else (ms ++ l, r + 1)).2 = r ∨
        (if l.isEmpty = true then (ms, r) else (ms ++ l, r + 1)).2 = r + 1) := by
  split
  · exact ⟨[], by simp⟩
  · exact ⟨l, rfl, Or.inr rfl⟩

/-- C9: `advanceTournament` never rewrites or removes an existing match: for
every input list, round and tournament type its output list is the input
list with zero or more newly created matches appended, and the returned round
is the input round or its successor. -/
theorem advanceTournament_appends_only (ms : List Match) (r : Nat)
    (t : TournamentType) (k : Nat) :
    ∃ app, (advanceTournament ms r t k).1 = ms ++ app ∧
      ((advanceTournament ms r t k).2 = r ∨ (advanceTournament ms r t k).2 = r + 1) := by
  unfold advanceTournament
  cases t <;> dsimp only
  · exact ⟨[], by simp⟩
  · split
    · exact ⟨[], by simp⟩
    · split
      · exact ⟨[], by simp⟩
      · exact advanceShape ms r _
  · split
    · exact ⟨[], by simp⟩
    · split
      · exact ⟨[], by simp⟩
      · exact advanceShape ms r _

/-- The doubling loop returns its argument as soon as the bound is met,
whatever fuel remains. -/
theorem nextPowLoop_stop (fuel tc p : Nat) (h : ¬ p < tc) :
    nextPowLoop fuel tc p = p := by
  cases fuel with
  | zero => rfl
  | succ f => simp [nextPowLoop, h]

/-- Running the doubling loop on a power of two towards a power-of-two bound
reaches the bound exactly, given fuel for the remaining doublings. -/
theorem nextPowLoop_pow_reach (d : Nat) :
    ∀ fuel j k, k = j + d → d ≤ fuel → nextPowLoop fuel (2 ^ k) (2 ^ j) = 2 ^ k := by
  induction d with
  | zero =>
      intro fuel j k hk _
      obtain rfl : j = k := by omega
      exact nextPowLoop_stop fuel (2 ^ j) (2 ^ j) (by omega)
  | succ d ih =>
      intro fuel j k hk hfuel
      cases fuel with
      | zero => omega
      | succ f =>
          have hlt : 2 ^ j < 2 ^ k := by
            apply Nat.pow_lt_pow_right (by omega)
            omega
          have : (2 : Nat) * 2 ^ j = 2 ^ (j + 1) := by ring
          simp only [nextPowLoop, if_pos hlt, this]
          exact ih f (j + 1) k (by omega) (by omega)

/-- `nextPowerOfTwo` fixes powers of two. -/
theorem nextPowerOfTwo_pow (k : Nat) : nextPowerOfTwo (2 ^ k) = 2 ^ k := by
  have h1 : (1 : Nat) = 2 ^ 0 := rfl
  rw [nextPowerOfTwo, h1]
  exact nextPowLoop_pow_reach k (2 ^ k) 0 k (by omega) (Nat.le_of_lt (Nat.lt_two_pow k))

/-- The doubling loop, started on a power of two with enough fuel, returns a
power of two at least as large as the bound. -/
theorem nextPowLoop_ge (fuel : Nat) :
    ∀ tc j, tc ≤ 2 ^ (j + fuel) →
      ∃ m, nextPowLoop fuel tc (2 ^ j) = 2 ^ m ∧ tc ≤ 2 ^ m := by
  induction fuel with
  | zero =>
      intro tc j h
      exact ⟨j, rfl, by simpa using h⟩
  | succ f ih =>
      intro tc j h
      by_cases hlt : 2 ^ j < tc
      · have h2 : (2 : Nat) * 2 ^ j = 2 ^ (j + 1) := by ring
        simp only [nextPowLoop, if_pos hlt, h2]
        have h3 : tc ≤ 2 ^ (j + 1 + f) := by
          have e : j + 1 + f = j + (f + 1) := by omega
          rw [e]
          exact h
        exact ih tc (j + 1) h3
      · simp only [nextPowLoop, if_neg hlt]
        exact ⟨j, rfl, by omega⟩

/-- `nextPowerOfTwo tc` is a power of two that is at least `tc`. -/
theorem nextPowerOfTwo_spec (tc : Nat) :
    ∃ m, nextPowerOfTwo tc = 2 ^ m ∧ tc ≤ 2 ^ m := by
  have h1 : (1 : Nat) = 2 ^ 0 := rfl
  rw [nextPowerOfTwo, h1]
  exact nextPowLoop_ge tc tc 0 (by simpa using Nat.le_of_lt (Nat.lt_two_pow tc))

/-- C6: the seeded position assignment puts seed 1 at position 0 and seed 2
at the last position `n - 1` of a power-of-two bracket of `n = 2 ^ k` slots,
hence in opposite halves (`0 < n / 2 ≤ n - 1`); under winner advancement by
adjacent pairs the round-`r` match index of a position `p` is `p / 2 ^ r`, so
the two seeds share a match only at round `k` — the final — and in no
earlier round. -/
theorem seeds_one_and_two_meet_only_in_final (k : Nat) (hk : 1 ≤ k) :
    (createSeededPositions (2 ^ k)).get? 0 = some 0 ∧
    (createSeededPositions (2 ^ k)).get? 1 = some (2 ^ k - 1) ∧
    0 < 2 ^ k / 2 ∧ 2 ^ k / 2 ≤ 2 ^ k - 1 ∧
    (∀ r, 0 < r → r < k → 0 / 2 ^ r ≠ (2 ^ k - 1) / 2 ^ r) ∧
    0 / 2 ^ k = (2 ^ k - 1) / 2 ^ k := by
  have hsz : nextPowerOfTwo (2 ^ k) = 2 ^ k := nextPowerOfTwo_pow k
  have h2 : (2 : Nat) ≤ 2 ^ k := by
    calc (2 : Nat) = 2 ^ 1 := rfl
    _ ≤ 2 ^ k := Nat.pow_le_pow_right (by omega) hk
  have hhalf : 2 ^ k / 2 = 2 ^ (k - 1) := by
    rcases Nat.exists_eq_add_of_le hk with ⟨j, hj⟩
    subst hj
    simp [Nat.pow_succ, Nat.add_comm]
  have hmid : 2 ^ (k - 1) ≤ 2 ^ k - 1 := by
    rcases Nat.exists_eq_add_of_le hk with ⟨j, hj⟩
    have : (2 : Nat) ^ (1 + j) = 2 ^ j * 2 := by rw [Nat.add_comm]; simp [Nat.pow_succ]
    have h1 : (1 : Nat) ≤ 2 ^ j := Nat.one_le_two_pow
    subst hj
    simp only [Nat.add_sub_cancel_left, this]
    omega
  refine ⟨?_, ?_, ?_, ?_, ?_, ?_⟩
  · simp [createSeededPositions, hsz, List.getElem?_map, List.getElem?_range,
      Nat.lt_of_lt_of_le (by omega : (0 : Nat) < 2) h2, seedPosition]
  · simp only [createSeededPositions, hsz, List.get?_eq_getElem?, List.getElem?_map,
      List.getElem?_range (Nat.lt_of_lt_of_le (by omega : (1 : Nat) < 2) h2)]
    simp [seedPosition]
  · omega
  · omega
  · intro r hr hrk
    have hle : 2 ^ r ≤ 2 ^ (k - 1) := Nat.pow_le_pow_right (by omega) (by omega)
    have hpos : 0 < (2 ^ k - 1) / 2 ^ r :=
      Nat.div_pos (by omega) (Nat.pos_pow_of_pos r (by omega))
    simp only [Nat.zero_div]
    omega
  · rw [Nat.zero_div, Nat.div_eq_of_lt (by omega)]

/-- Witness for C6 at `k = 2` (a four-slot bracket): seeds 1 and 2 sit at
positions 0 and 3 and their round-1 match indices differ. -/
theorem seeds_one_and_two_meet_only_in_final_witness :
    (createSeededPositions (2 ^ 2)).get? 0 = some 0 ∧
    (createSeededPositions (2 ^ 2)).get? 1 = some (2 ^ 2 - 1) ∧
    0 / 2 ^ 1 ≠ (2 ^ 2 - 1) / 2 ^ 1 := by
  have h := seeds_one_and_two_meet_only_in_final 2 (by omega)
  exact ⟨h.1, h.2.1, h.2.2.2.2.1 1 (by omega) (by omega)⟩

/-! ## Counting and membership lemmas for the first-round generator -/

/-- A count splits between a predicate and its negation. -/
theorem countP_split (l : List α) (p : α → Bool) :
    l.countP p + l.countP (fun a => !(p a)) = l.length := by
  induction l with
  | nil => rfl
  | cons a t ih => by_cases h : p a = true <;> simp [List.countP_cons, h] <;> omega

/-- `mkPairs` produces one pair per two cells. -/
theorem mkPairs_length : ∀ l : List (Option Team), (mkPairs l).length = l.length / 2
  | [] => rfl
  | [_] => by simp [mkPairs]
  | _ :: _ :: rest => by
      have := mkPairs_length rest
      simp only [mkPairs, List.length_cons]
      omega

/-- Every pair produced by `mkPairs` is a pair of adjacent cells of the
array. -/
theorem mkPairs_mem : ∀ (l : List (Option Team)) (p : Option Team × Option Team),
    p ∈ mkPairs l → ∃ j, l[2 * j]? = some p.1 ∧ l[2 * j + 1]? = some p.2
  | [], p, h => by simp [mkPairs] at h
  | [_], p, h => by simp [mkPairs] at h
  | a :: b :: rest, p, h => by
      rcases (by simpa [mkPairs] using h :
          p = (a, b) ∨ p ∈ mkPairs rest) with h1 | h2
      · exact ⟨0, by simp [h1]⟩
      · rcases mkPairs_mem rest p h2 with ⟨j, hj1, hj2⟩
        refine ⟨j + 1, ?_, ?_⟩
        · have e : 2 * (j + 1) = 2 * j + 1 + 1 := by omega
          rw [e]
          simpa using hj1
        · have e : 2 * (j + 1) + 1 = 2 * j + 1 + 1 + 1 := by omega
          rw [e]
          simpa using hj2

/-- The generator creates one match per pair holding at least one team. -/
theorem knockoutPairMatches_length :
    ∀ (k : Nat) (ps : List (Option Team × Option Team)),
      (knockoutPairMatches k ps).length =
        ps.countP (fun p => !(p.1.isNone && p.2.isNone))
  | _, [] => rfl
  | k, (none, none) :: rest => by
      simp [knockoutPairMatches, List.countP_cons,
        knockoutPairMatches_length k rest]
  | k, (none, some t2) :: rest => by
      simp [knockoutPairMatches, List.countP_cons,
        knockoutPairMatches_length (k + 1) rest]
  | k, (some t1, none) :: rest => by
      simp [knockoutPairMatches, List.countP_cons,
        knockoutPairMatches_length (k + 1) rest]
  | k, (some t1, some t2) :: rest => by
      simp [knockoutPairMatches, List.countP_cons,
        knockoutPairMatches_length (k + 1) rest]

/-- Every generated first-round match is either a pre-resolved bye (same team
in both slots, winner that team) or an unresolved match whose two slots came
from a fully seeded pair. -/
theorem knockoutPairMatches_mem :
    ∀ (k : Nat) (ps : List (Option Team × Option Team)) (m : Match),
      m ∈ knockoutPairMatches k ps →
        (m.team2 = m.team1 ∧ m.winner = some m.team1) ∨
        (m.winner = none ∧ (some m.team1, some m.team2) ∈ ps)
  | _, [], m, h => by simp [knockoutPairMatches] at h
  | k, (none, none) :: rest, m, h => by
      rcases knockoutPairMatches_mem k rest m (by simpa [knockoutPairMatches] using h)
        with h1 | ⟨h2, h3⟩
      · exact Or.inl h1
      · exact Or.inr ⟨h2, List.mem_cons_of_mem _ h3⟩
  | k, (none, some t2) :: rest, m, h => by
      rcases (by simpa [knockoutPairMatches] using h :
          m = { id := k, team1 := t2, team2 := t2, winner := some t2, round := 1 } ∨
            m ∈ knockoutPairMatches (k + 1) rest) with h1 | h2
      · subst h1
        exact Or.inl ⟨rfl, rfl⟩
      · rcases knockoutPairMatches_mem (k + 1) rest m h2 with h1 | ⟨h3, h4⟩
        · exact Or.inl h1
        · exact Or.inr ⟨h3, List.mem_cons_of_mem _ h4⟩
  | k, (some t1, none) :: rest, m, h => by
      rcases (by simpa [knockoutPairMatches] using h :
          m = { id := k, team1 := t1, team2 := t1, winner := some t1, round := 1 } ∨
            m ∈ knockoutPairMatches (k + 1) rest) with h1 | h2
      · subst h1
        exact Or.inl ⟨rfl, rfl⟩
      · rcases knockoutPairMatches_mem (k + 1) rest m h2 with h1 | ⟨h3, h4⟩
        · exact Or.inl h1
        · exact Or.inr ⟨h3, List.mem_cons_of_mem _ h4⟩
  | k, (some t1, some t2) :: rest, m, h => by
      rcases (by simpa [knockoutPairMatches] using h :
          m = { id := k, team1 := t1, team2 := t2, winner := none, round := 1 } ∨
            m ∈ knockoutPairMatches (k + 1) rest) with h1 | h2
      · subst h1
        exact Or.inr ⟨rfl, by simp⟩
      · rcases knockoutPairMatches_mem (k + 1) rest m h2 with h1 | ⟨h3, h4⟩
        · exact Or.inl h1
        · exact Or.inr ⟨h3, List.mem_cons_of_mem _ h4⟩

/-- The placement fold preserves the array length. -/
theorem foldSet_length (teams : List Team) (P : List Nat) :
    ∀ (idxs : List Nat) (arr : List (Option Team)),
      (idxs.foldl (fun a i => a.set (P.getD i 0) (teams.get? i)) arr).length =
        arr.length
  | [], _ => rfl
  | i :: t, arr => by
      simpa [List.foldl_cons] using
        foldSet_length teams P t (arr.set (P.getD i 0) (teams.get? i))

/-- `teamsWithByes` has one cell per seeded position. -/
theorem placeTeams_length (teams : List Team) (P : List Nat) :
    (placeTeams teams P).length = P.length := by
  unfold placeTeams
  rw [foldSet_length]
  simp

/-- Any cell of the placement fold holding a team was either written by one
of the processed indices or held that team initially. -/
theorem foldSet_some (teams : List Team) (P : List Nat) :
    ∀ (idxs : List Nat) (arr : List (Option Team)) (c : Nat) (t : Team),
      (idxs.foldl (fun a i => a.set (P.getD i 0) (teams.get? i)) arr)[c]? =
          some (some t) →
        (∃ i ∈ idxs, P.getD i 0 = c ∧ teams.get? i = some t) ∨
          arr[c]? = some (some t)
  | [], _, _, _, h => Or.inr h
  | i :: idxs, arr, c, t, h => by
      rcases foldSet_some teams P idxs (arr.set (P.getD i 0) (teams.get? i)) c t
          (by simpa [List.foldl_cons] using h) with ⟨i2, hi2, hp, ht⟩ | hset
      · exact Or.inl ⟨i2, List.mem_cons_of_mem _ hi2, hp, ht⟩
      · by_cases hc : P.getD i 0 = c
        · subst hc
          by_cases hlt : P.getD i 0 < arr.length
          · rw [List.getElem?_set_eq_of_lt _ hlt] at hset
            exact Or.inl ⟨i, by simp, rfl, by simpa using hset⟩
          · rw [List.getElem?_eq_none (by simpa using Nat.le_of_not_lt hlt)] at hset
            exact absurd hset (by simp)
        · rw [List.getElem?_set_ne hc] at hset
          exact Or.inr hset

/-- Any inhabited cell of `teamsWithByes` holds one of the seeded teams, at
that team's seeded position. -/
theorem placeTeams_some (teams : List Team) (P : List Nat) (c : Nat) (t : Team)
    (h : (placeTeams teams P)[c]? = some (some t)) :
    ∃ i, i < teams.length ∧ P.getD i 0 = c ∧ teams.get? i = some t := by
  unfold placeTeams at h
  rcases foldSet_some teams P (List.range teams.length)
      (List.replicate P.length none) c t h with ⟨i, hi, hp, ht⟩ | hinit
  · exact ⟨i, List.mem_range.1 hi, hp, ht⟩
  · rw [List.getElem?_replicate] at hinit
    by_cases hc : c < P.length <;> simp [hc] at hinit

/-- The adjacent position pairs the first-round generator walks for a given
team list. -/
def seededPairs (teams : List Team) : List (Option Team × Option Team) :=
  mkPairs (placeTeams teams (createSeededPositions teams.length))

/-- The number of adjacent position pairs that receive no team at all — the
pairs the generator skips (`continue`) without creating any match. -/
def emptyPairCount (teams : List Team) : Nat :=
  (seededPairs teams).countP (fun p => p.1.isNone && p.2.isNone)

/-- There is one position pair per two bracket slots. -/
theorem seededPairs_length (teams : List Team) :
    (seededPairs teams).length = nextPowerOfTwo teams.length / 2 := by
  unfold seededPairs
  rw [mkPairs_length, placeTeams_length]
  simp [createSeededPositions]

/-- A nonempty team list takes the generator's main branch. -/
theorem generateKnockoutMatches_eq (teams : List Team) (k : Nat)
    (h2 : 2 ≤ teams.length) :
    generateKnockoutMatches teams k = knockoutPairMatches k (seededPairs teams) := by
  have hne : teams.isEmpty = false := by cases teams <;> simp_all
  simp [generateKnockoutMatches, seededPairs, hne]

/-- C5 (amended): for `n ≥ 2` teams the first-round generator produces
`size / 2` matches *minus one per position pair left entirely empty by the
seeding* (`size = nextPowerOfTwo n`; the source skips such pairs with
`continue`, so for example 5 teams yield 3 matches, not 4 — see the
counterexample); and every produced match is either a bye whose two slots are
the same team with outcome pre-resolved to that team, or an unresolved match
between two seeded teams. -/
theorem knockout_round1_count_and_byes (teams : List Team) (k : Nat)
    (h2 : 2 ≤ teams.length) :
    (generateKnockoutMatches teams k).length =
      nextPowerOfTwo teams.length / 2 - emptyPairCount teams ∧
    ∀ m ∈ generateKnockoutMatches teams k,
      (m.team2 = m.team1 ∧ m.winner = some m.team1) ∨ m.winner = none := by
  rw [generateKnockoutMatches_eq teams k h2]
  constructor
  · rw [knockoutPairMatches_length]
    have hs := countP_split (seededPairs teams) (fun p => p.1.isNone && p.2.isNone)
    have hl := seededPairs_length teams
    unfold emptyPairCount
    omega
  · intro m hm
    rcases knockoutPairMatches_mem k (seededPairs teams) m hm with h | ⟨h, _⟩
    · exact Or.inl h
    · exact Or.inr h

/-- Witness for the amended C5 theorem at three teams: `size = 4`, no empty
pair, two matches. -/
theorem knockout_round1_count_and_byes_witness :
    (generateKnockoutMatches [mkTeam 1, mkTeam 2, mkTeam 3] 0).length =
      nextPowerOfTwo ([mkTeam 1, mkTeam 2, mkTeam 3] : List Team).length / 2 -
        emptyPairCount [mkTeam 1, mkTeam 2, mkTeam 3] :=
  (knockout_round1_count_and_byes [mkTeam 1, mkTeam 2, mkTeam 3] 0 (by decide)).1

/-- C5 counterexample: for five teams the bracket size is 8, so the claim
demands `8 / 2 = 4` first-round matches and three byes (one per unseeded
slot); the generator actually returns only 3 matches with a single bye,
because positions 4 and 5 form a pair with no team and the pair is skipped
without creating a match. -/
theorem knockout_round1_five_teams_cex :
    (generateKnockoutMatches
        [mkTeam 1, mkTeam 2, mkTeam 3, mkTeam 4, mkTeam 5] 0).length = 3 ∧
    nextPowerOfTwo 5 / 2 = 4 ∧
    (generateKnockoutMatches
        [mkTeam 1, mkTeam 2, mkTeam 3, mkTeam 4, mkTeam 5] 0).countP
      (fun m => isByeMatch m) = 1 := by
  decide

/-- The bye match the three-team bracket creates for team 2. -/
def byeForTeamTwo : Match :=
  { id := 1, team1 := mkTeam 2, team2 := mkTeam 2, winner := some (mkTeam 2),
    round := 1 }

/-- C8 (amended): every bye match created by the first-round generator (for
teams with pairwise distinct ids) has its outcome pre-resolved to its team;
but the current-matches list shown for user action filters only by round
number, so bye matches do appear in it (see the counterexample) — the UI
renders them as non-actionable "automatic advance" cards rather than
excluding them from the list. -/
theorem byes_preresolved_but_listed (teams : List Team) (k : Nat)
    (h2 : 2 ≤ teams.length) (hids : (teams.map (fun t => t.id)).Nodup) :
    (∀ m ∈ generateKnockoutMatches teams k,
      isByeMatch m = true → m.winner = some m.team1) ∧
    (∀ (ms : List Match) (r : Nat) (x : Match),
      x ∈ ms → x.round = r → x ∈ currentMatches ms r) := by
  constructor
  · intro m hm hbye
    rw [generateKnockoutMatches_eq teams k h2] at hm
    rcases knockoutPairMatches_mem k (seededPairs teams) m hm with ⟨_, hw⟩ | ⟨hw, hmem⟩
    · exact hw
    · exfalso
      rcases mkPairs_mem _ _ hmem with ⟨j, h1, hj2⟩
      rcases placeTeams_some teams _ _ _ h1 with ⟨i1, hi1, hp1, ht1⟩
      rcases placeTeams_some teams _ _ _ hj2 with ⟨i2, hi2, hp2, ht2⟩
      have hne12 : i1 ≠ i2 := by
        intro e
        rw [e, hp2] at hp1
        omega
      have hb : m.team1.id = m.team2.id := by simpa [isByeMatch] using hbye
      have hmap1 : (teams.map (fun t => t.id))[i1]? = some m.team1.id := by
        rw [List.getElem?_map, ← List.get?_eq_getElem?, ht1]
        rfl
      have hmap2 : (teams.map (fun t => t.id))[i2]? = some m.team2.id := by
        rw [List.getElem?_map, ← List.get?_eq_getElem?, ht2]
        rfl
      exact hne12 (List.getElem?_inj (by simpa using hi1) hids
        (by rw [hmap1, hmap2, hb]))
  · intro ms r x hx hr
    simp [currentMatches, List.mem_filter, hx, hr]

/-- Witness for the amended C8 theorem at three distinct teams, specialized
to the concrete bye the bracket creates. -/
theorem byes_preresolved_but_listed_witness :
    byeForTeamTwo.winner = some byeForTeamTwo.team1 :=
  (byes_preresolved_but_listed [mkTeam 1, mkTeam 2, mkTeam 3] 0 (by decide)
    (by decide)).1 byeForTeamTwo (by decide) (by decide)

/-- C8 counterexample: the three-team bracket's bye (team 2 against itself,
pre-resolved) sits in `currentMatchesAtom`'s list for round 1 — byes are not
excluded from the list presented for user action. -/
theorem bye_appears_in_current_matches :
    (generateKnockoutMatches [mkTeam 1, mkTeam 2, mkTeam 3] 0)[1]? =
      some byeForTeamTwo ∧
    byeForTeamTwo ∈
      currentMatches (generateKnockoutMatches [mkTeam 1, mkTeam 2, mkTeam 3] 0) 1 ∧
    isByeMatch byeForTeamTwo = true := by
  decide
